import Mathlib

/-!
Shallow embedding of the arc-check-in session API.

Sources:
* `src/api-handler.ts` — the deployed Lambda handler: `getCurrentSession`,
  `handleCheckinStatus`, `handleCheckinToggle`, `handleCheckinHistory`.
* `src/unnamed/part_003` (admin implementation plan) — `handleAdminActiveCheckins`,
  `handleAdminCheckinHistory`, and the toggle open-branch variant that stores
  `userName`/`userEmail`.

Modelling choices:
* Timestamps (`new Date().toISOString()` strings) are modelled as `Nat`; ISO-8601
  strings of equal length compare lexicographically exactly as their instants do.
* A DynamoDB item attribute that can be absent, `null`, or a timestamp is
  `Option (Option Nat)`: `none` = attribute absent, `some none` = NULL,
  `some (some t)` = timestamp `t`.
* The DynamoDB table is a `List Session`; the table's key schema
  (partition `userId`, sort `checkInTime`) is the well-formedness predicate
  `WF` (pairwise-distinct keys), which every real table state satisfies.
* A `Query` with `ScanIndexForward: false` returns the partition's items in
  descending sort-key order; `Limit n` takes the first `n`.
* `PutItem` without a condition expression replaces any existing item with the
  same key (standard DynamoDB semantics).
* `UpdateItem` with a `ConditionExpression` fails with
  `ConditionalCheckFailedException` when the item exists and the condition is
  false; when the item does not exist the condition is evaluated against the
  empty item (so `attribute_not_exists` holds) and the update creates the item.
-/

namespace ArcCheckIn

/-- One DynamoDB item of the `checkin_sessions` table. -/
structure Session where
  userId : String
  checkInTime : Nat
  checkOutTime : Option (Option Nat) := none
  userName : Option String := none
  userEmail : Option String := none
deriving Repr, DecidableEq

/-- The verified JWT payload fields the handlers read (`decoded.sub`,
`decoded[AUTH0_DOMAIN/name]`, `decoded.name`, and the email pair).
`none` stands for a missing claim. -/
structure Decoded where
  sub : String
  nsName : Option String := none
  name : Option String := none
  nsEmail : Option String := none
  email : Option String := none
deriving Repr, DecidableEq

/-- JS truthiness test `!session.checkOutTime` from `getCurrentSession`
(api-handler.ts line 117): `undefined` and `null` are falsy; a stored ISO
timestamp string is non-empty, hence truthy. `true` means the session is open. -/
def jsFalsyCheckOut (s : Session) : Bool :=
  match s.checkOutTime with
  | none => true
  | some none => true
  | some (some _) => false

/-- The checkout `ConditionExpression`
`attribute_not_exists(checkOutTime) OR checkOutTime = :null`
(api-handler.ts line 165), evaluated on an existing item. -/
def closeCondition (s : Session) : Bool :=
  s.checkOutTime == none || s.checkOutTime == some none

/-- The JS projection `item.checkOutTime || null` used by the history handlers:
absent and `null` both become `null`; a timestamp stays. -/
def normCheckOut : Option (Option Nat) → Option Nat
  | some (some t) => some t
  | _ => none

/-- Insert into a list kept in descending `checkInTime` order. -/
def insertDesc (s : Session) : List Session → List Session
  | [] => [s]
  | t :: ts =>
    if t.checkInTime ≤ s.checkInTime then s :: t :: ts else t :: insertDesc s ts

/-- Sort sessions by descending `checkInTime` (insertion sort). -/
def sortDesc : List Session → List Session
  | [] => []
  | s :: rest => insertDesc s (sortDesc rest)

/-- DynamoDB `Query` on the `userId` partition with `ScanIndexForward: false`:
the user's items in descending `checkInTime` order. -/
def queryDesc (store : List Session) (userId : String) : List Session :=
  sortDesc (store.filter (fun s => s.userId == userId))

/-- `getCurrentSession` (api-handler.ts lines 105-121): query the user's
partition descending with `Limit: 1`; if the first item exists and
`!session.checkOutTime`, the user is checked in. -/
def getCurrentSession (store : List Session) (userId : String) : Option Session :=
  match (queryDesc store userId).head? with
  | some s => if jsFalsyCheckOut s then some s else none
  | none => none

/-- DynamoDB `PutItem` without a condition expression: replaces any existing
item with the same `(userId, checkInTime)` key. -/
def dynamoPut (store : List Session) (item : Session) : List Session :=
  store.filter
      (fun s => !(s.userId == item.userId && s.checkInTime == item.checkInTime))
    ++ [item]

/-- The write of the checkout `UpdateCommand`: `SET checkOutTime = :checkOutTime`
on the item with key `(userId, t)`, all other items untouched. -/
def closeUpd (userId : String) (t endT : Nat) (x : Session) : Session :=
  if x.userId == userId && x.checkInTime == t then
    { x with checkOutTime := some (some endT) }
  else x

/-- The checkout `UpdateCommand` (api-handler.ts lines 158-170):
`SET checkOutTime = :checkOutTime` guarded by
`attribute_not_exists(checkOutTime) OR checkOutTime = :null`.
`Except.error` is `ConditionalCheckFailedException`. -/
def dynamoCondClose (store : List Session) (userId : String) (t endT : Nat) :
    Except Unit (List Session) :=
  match store.find? (fun s => s.userId == userId && s.checkInTime == t) with
  | some s =>
    if closeCondition s then .ok (store.map (closeUpd userId t endT))
    else .error ()
  | none =>
    .ok (store ++ [{ userId := userId, checkInTime := t,
                     checkOutTime := some (some endT) }])

/-- Outcome of `POST /api/checkin` as the handler serialises it:
200 with `checkedIn: true`, 200 with `checkedIn: false`, or 409 Conflict. -/
inductive ToggleResult where
  | checkedInNow (checkInTime : Nat)
  | checkedOutNow (checkInTime endTime : Nat)
  | conflict
deriving Repr, DecidableEq

/-- HTTP status code of a toggle outcome. -/
def ToggleResult.statusCode : ToggleResult → Nat
  | .checkedInNow _ => 200
  | .checkedOutNow _ _ => 200
  | .conflict => 409

/-- Write phase of the check-out branch of `handleCheckinToggle`, given the
session `cur` the read phase observed: one conditional update; on
`ConditionalCheckFailedException` the handler returns 409 with the store
untouched and performs no retry (api-handler.ts lines 153-181 and 209-218). -/
def toggleCloseGiven (store : List Session) (userId : String) (cur : Session)
    (now : Nat) : ToggleResult × List Session :=
  match dynamoCondClose store userId cur.checkInTime now with
  | .ok store2 => (.checkedOutNow cur.checkInTime now, store2)
  | .error _ => (.conflict, store)

/-- `handleCheckinToggle` (api-handler.ts lines 148-226): resolve the current
session; if open, conditionally close it; otherwise put a fresh item
`{ userId, checkInTime: now }` (no `checkOutTime`, no display attributes,
no condition expression). `now` is `new Date().toISOString()`. -/
def handleCheckinToggle (store : List Session) (userId : String) (now : Nat) :
    ToggleResult × List Session :=
  match getCurrentSession store userId with
  | some cur => toggleCloseGiven store userId cur now
  | none =>
    (.checkedInNow now, dynamoPut store { userId := userId, checkInTime := now })

/-- Body of the 200 response of `GET /api/checkin/status`. -/
structure StatusBody where
  checkedIn : Bool
  currentCheckInTime : Option Nat
deriving Repr, DecidableEq

/-- `handleCheckinStatus` (api-handler.ts lines 123-146): a pure read — the
only store interaction is a `QueryCommand`, so the store is returned
unchanged. -/
def handleCheckinStatus (store : List Session) (userId : String) :
    StatusBody × List Session :=
  match getCurrentSession store userId with
  | some cur => ({ checkedIn := true, currentCheckInTime := some cur.checkInTime }, store)
  | none => ({ checkedIn := false, currentCheckInTime := none }, store)

/-- One entry of the `GET /api/checkin/history` response body. -/
structure HistoryEntry where
  checkInTime : Nat
  checkOutTime : Option Nat
deriving Repr, DecidableEq

/-- `handleCheckinHistory` (api-handler.ts lines 228-259): query the user's
partition descending with `Limit: 50`, projecting
`{ checkInTime, checkOutTime: item.checkOutTime || null }`. Pure read. -/
def handleCheckinHistory (store : List Session) (userId : String) :
    List HistoryEntry × List Session :=
  (((queryDesc store userId).take 50).map (fun s =>
    { checkInTime := s.checkInTime, checkOutTime := normCheckOut s.checkOutTime }),
   store)

/-- JS truthiness filter of `a || b` on optional string claims: an absent or
empty-string claim falls through to the next alternative. -/
def jsTruthy (s : Option String) : Option String :=
  match s with
  | some t => if t = "" then none else some t
  | none => none

/-- `a || b` for optional string claims. -/
def jsOrElse (a b : Option String) : Option String :=
  match jsTruthy a with
  | some s => some s
  | none => jsTruthy b

/-- `decoded[AUTH0_DOMAIN/name] || decoded.name || ''`
(src/unnamed/part_003, admin plan Task 1). -/
def resolveName (d : Decoded) : String := (jsOrElse d.nsName d.name).getD ""

/-- `decoded[AUTH0_DOMAIN/email] || decoded.email || ''`
(src/unnamed/part_003, admin plan Task 1). -/
def resolveEmail (d : Decoded) : String := (jsOrElse d.nsEmail d.email).getD ""

/-- `handleCheckinToggle` as amended by the admin plan
(src/unnamed/part_003 lines 482-496): the open branch additionally stores
`userName` and `userEmail` from the decoded JWT; the close branch is the
conditional update of api-handler.ts, unchanged. -/
def handleCheckinToggleWithAttrs (store : List Session) (d : Decoded) (now : Nat) :
    ToggleResult × List Session :=
  match getCurrentSession store d.sub with
  | some cur => toggleCloseGiven store d.sub cur now
  | none =>
    (.checkedInNow now,
     dynamoPut store
       { userId := d.sub, checkInTime := now,
         userName := some (resolveName d), userEmail := some (resolveEmail d) })

/-- One entry of the `GET /api/admin/checkins/active` response body. -/
structure RosterEntry where
  userId : String
  userName : String
  userEmail : String
  checkInTime : Nat
deriving Repr, DecidableEq

/-- `handleAdminActiveCheckins` (src/unnamed/part_003): `Scan` with
`FilterExpression: attribute_not_exists(checkOutTime)`, sorted descending by
`checkInTime`, projecting userId, display attributes (defaulting to `''`),
and `checkInTime`. Pure read. -/
def handleAdminActiveCheckins (store : List Session) :
    List RosterEntry × List Session :=
  ((sortDesc (store.filter (fun s => s.checkOutTime == none))).map (fun s =>
    { userId := s.userId, userName := s.userName.getD "",
      userEmail := s.userEmail.getD "", checkInTime := s.checkInTime }),
   store)

/-- One entry of the `GET /api/admin/checkins/history` response body. -/
structure AdminHistoryEntry where
  userId : String
  userName : String
  userEmail : String
  checkInTime : Nat
  checkOutTime : Option Nat
deriving Repr, DecidableEq

/-- Outcome of `GET /api/admin/checkins/history`: 400 when `start` or `end`
is missing, else 200 with the matching sessions. -/
inductive AdminHistoryResult where
  | badRequest
  | ok (sessions : List AdminHistoryEntry)
deriving Repr, DecidableEq

/-- Projection used by the admin history handler. -/
def adminProj (s : Session) : AdminHistoryEntry :=
  { userId := s.userId, userName := s.userName.getD "",
    userEmail := s.userEmail.getD "", checkInTime := s.checkInTime,
    checkOutTime := normCheckOut s.checkOutTime }

/-- `handleAdminCheckinHistory` (src/unnamed/part_003 lines 623-665):
`if (!start || !end)` return 400 (a missing or empty bound is modelled as
`none`); otherwise `Scan` with
`FilterExpression: checkInTime BETWEEN :start AND :end` (inclusive bounds,
matching nothing when `start > end`), sorted descending. Pure read. -/
def handleAdminCheckinHistory (store : List Session)
    (startB endB : Option Nat) : AdminHistoryResult × List Session :=
  match startB, endB with
  | some a, some b =>
    (.ok ((sortDesc (store.filter
        (fun s => a ≤ s.checkInTime && s.checkInTime ≤ b))).map adminProj),
     store)
  | _, _ => (.badRequest, store)

/-- A sequence of sequential toggle calls `(userId, now)` applied in order. -/
def runToggles : List (String × Nat) → List Session → List Session
  | [], store => store
  | (u, t) :: rest, store => runToggles rest (handleCheckinToggle store u t).2

/-- Key uniqueness of the DynamoDB table: partition key `userId`, sort key
`checkInTime` — no two items share both. -/
def WF (store : List Session) : Prop :=
  store.Pairwise (fun a b => a.userId ≠ b.userId ∨ a.checkInTime ≠ b.checkInTime)

/-- Every open session of a user is maximal in `checkInTime` among that
user's sessions (hence, under `WF`, at most one is open). -/
def GoodUser (u : String) (store : List Session) : Prop :=
  ∀ s ∈ store, s.userId = u → jsFalsyCheckOut s = true →
    ∀ x ∈ store, x.userId = u → x.checkInTime ≤ s.checkInTime

/-! ### Lemmas about the descending sort -/

theorem mem_insertDesc {x s : Session} {l : List Session} :
    x ∈ insertDesc s l ↔ x = s ∨ x ∈ l := by
  induction l with
  | nil => simp [insertDesc]
  | cons t ts ih =>
    by_cases h : t.checkInTime ≤ s.checkInTime
    · simp [insertDesc, h]
    · simp only [insertDesc, if_neg h, List.mem_cons, ih]
      tauto

theorem mem_sortDesc {x : Session} {l : List Session} :
    x ∈ sortDesc l ↔ x ∈ l := by
  induction l with
  | nil => simp [sortDesc]
  | cons s rest ih => simp [sortDesc, mem_insertDesc, ih]

theorem insertDesc_ne_nil (s : Session) (l : List Session) :
    insertDesc s l ≠ [] := by
  cases l with
  | nil => simp [insertDesc]
  | cons t ts => rw [insertDesc]; split <;> simp

theorem sortDesc_eq_nil_iff {l : List Session} : sortDesc l = [] ↔ l = [] := by
  cases l with
  | nil => simp [sortDesc]
  | cons s rest => simp [sortDesc, insertDesc_ne_nil]

theorem pairwise_insertDesc {s : Session} {l : List Session}
    (h : l.Pairwise (fun a b => b.checkInTime ≤ a.checkInTime)) :
    (insertDesc s l).Pairwise (fun a b => b.checkInTime ≤ a.checkInTime) := by
  induction l with
  | nil => simp [insertDesc]
  | cons t ts ih =>
    rcases List.pairwise_cons.mp h with ⟨ht, hts⟩
    by_cases hc : t.checkInTime ≤ s.checkInTime
    · rw [insertDesc, if_pos hc]
      refine List.pairwise_cons.mpr ⟨?_, h⟩
      intro b hb
      rcases List.mem_cons.mp hb with rfl | hb
      · exact hc
      · exact le_trans (ht b hb) hc
    · rw [insertDesc, if_neg hc]
      refine List.pairwise_cons.mpr ⟨?_, ih hts⟩
      intro b hb
      rcases mem_insertDesc.mp hb with rfl | hb
      · exact le_of_not_le hc
      · exact ht b hb

theorem sortDesc_sorted (l : List Session) :
    (sortDesc l).Pairwise (fun a b => b.checkInTime ≤ a.checkInTime) := by
  induction l with
  | nil => simp [sortDesc]
  | cons s rest ih => exact pairwise_insertDesc ih

theorem pairwise_symm_insertDesc {R : Session → Session → Prop}
    (hsymm : ∀ a b, R a b → R b a) {s : Session} {l : List Session}
    (hl : l.Pairwise R) (hs : ∀ x ∈ l, R s x) :
    (insertDesc s l).Pairwise R := by
  induction l with
  | nil => simp [insertDesc]
  | cons t ts ih =>
    rcases List.pairwise_cons.mp hl with ⟨ht, hts⟩
    by_cases hc : t.checkInTime ≤ s.checkInTime
    · rw [insertDesc, if_pos hc]
      exact List.pairwise_cons.mpr ⟨fun b hb => hs b hb, hl⟩
    · rw [insertDesc, if_neg hc]
      refine List.pairwise_cons.mpr
        ⟨?_, ih hts (fun x hx => hs x (List.mem_cons_of_mem _ hx))⟩
      intro b hb
      rcases mem_insertDesc.mp hb with rfl | hb
      · exact hsymm _ _ (hs t (List.mem_cons_self _ _))
      · exact ht b hb

theorem pairwise_symm_sortDesc {R : Session → Session → Prop}
    (hsymm : ∀ a b, R a b → R b a) {l : List Session} (hl : l.Pairwise R) :
    (sortDesc l).Pairwise R := by
  induction l with
  | nil => simp [sortDesc]
  | cons s rest ih =>
    rcases List.pairwise_cons.mp hl with ⟨hs, hrest⟩
    exact pairwise_symm_insertDesc hsymm (ih hrest)
      (fun x hx => hs x (mem_sortDesc.mp hx))

theorem head?_sortDesc_mem {l : List Session} {h : Session}
    (hh : (sortDesc l).head? = some h) : h ∈ l := by
  have hmem : h ∈ sortDesc l := by
    cases e : sortDesc l with
    | nil => rw [e] at hh; simp at hh
    | cons a t =>
      rw [e] at hh
      simp only [List.head?_cons, Option.some.injEq] at hh
      subst hh
      exact List.mem_cons_self _ _
  exact mem_sortDesc.mp hmem

theorem head?_sortDesc_max {l : List Session} {h : Session}
    (hh : (sortDesc l).head? = some h) :
    ∀ x ∈ l, x.checkInTime ≤ h.checkInTime := by
  intro x hx
  have hx2 : x ∈ sortDesc l := mem_sortDesc.mpr hx
  cases e : sortDesc l with
  | nil => rw [e] at hx2; simp at hx2
  | cons a t =>
    rw [e] at hh hx2
    simp only [List.head?_cons, Option.some.injEq] at hh
    subst hh
    rcases List.mem_cons.mp hx2 with rfl | hxt
    · exact le_refl _
    · have hsort := sortDesc_sorted l
      rw [e] at hsort
      exact (List.pairwise_cons.mp hsort).1 x hxt

/-! ### Lemmas about well-formed stores -/

theorem wf_key_unique {store : List Session} (hwf : WF store) {a b : Session}
    (ha : a ∈ store) (hb : b ∈ store) (hu : a.userId = b.userId)
    (ht : a.checkInTime = b.checkInTime) : a = b := by
  induction store with
  | nil => simp at ha
  | cons x xs ih =>
    rcases List.pairwise_cons.mp hwf with ⟨hx, hxs⟩
    rcases List.mem_cons.mp ha with rfl | ha2
    · rcases List.mem_cons.mp hb with rfl | hb2
      · rfl
      · rcases hx b hb2 with h | h
        · exact absurd hu h
        · exact absurd ht h
    · rcases List.mem_cons.mp hb with rfl | hb2
      · rcases hx a ha2 with h | h
        · exact absurd hu.symm h
        · exact absurd ht.symm h
      · exact ih hxs ha2 hb2

theorem wf_find_eq {store : List Session} (hwf : WF store) {c : Session}
    (hc : c ∈ store) :
    store.find? (fun s => s.userId == c.userId && s.checkInTime == c.checkInTime)
      = some c := by
  induction store with
  | nil => simp at hc
  | cons x xs ih =>
    rcases List.pairwise_cons.mp hwf with ⟨hx, hxs⟩
    rcases List.mem_cons.mp hc with rfl | hc2
    · simp [List.find?_cons_of_pos]
    · have hne : (x.userId == c.userId && x.checkInTime == c.checkInTime) = false := by
        rcases hx c hc2 with h | h <;> simp [h]
      simp only [List.find?_cons, hne]
      exact ih hxs hc2

theorem closeUpd_userId (u : String) (t e : Nat) (x : Session) :
    (closeUpd u t e x).userId = x.userId := by
  unfold closeUpd; split <;> rfl

theorem closeUpd_checkInTime (u : String) (t e : Nat) (x : Session) :
    (closeUpd u t e x).checkInTime = x.checkInTime := by
  unfold closeUpd; split <;> rfl

theorem wf_map_closeUpd {store : List Session} (hwf : WF store)
    (u : String) (t e : Nat) : WF (store.map (closeUpd u t e)) := by
  unfold WF at hwf ⊢
  rw [List.pairwise_map]
  refine hwf.imp ?_
  intro a b hab
  rcases hab with h | h
  · left; rw [closeUpd_userId, closeUpd_userId]; exact h
  · right; rw [closeUpd_checkInTime, closeUpd_checkInTime]; exact h

theorem wf_dynamoPut {store : List Session} (hwf : WF store) (item : Session) :
    WF (dynamoPut store item) := by
  unfold dynamoPut WF
  rw [List.pairwise_append]
  refine ⟨hwf.filter _, List.pairwise_singleton _ _, ?_⟩
  intro a ha b hb
  rcases List.mem_filter.mp ha with ⟨_, hpa⟩
  rw [List.mem_singleton] at hb
  subst hb
  simp only [Bool.not_eq_eq_eq_not, Bool.not_true, Bool.and_eq_false_imp,
    beq_eq_false_iff_ne, ne_eq, beq_iff_eq] at hpa
  by_cases h : a.userId = b.userId
  · right; exact hpa h
  · left; exact h

/-- The JS truthiness test of the resolver and the `ConditionExpression` of the
checkout update accept exactly the same sessions. -/
theorem jsFalsy_eq_closeCondition (s : Session) :
    jsFalsyCheckOut s = closeCondition s := by
  unfold jsFalsyCheckOut closeCondition
  cases h : s.checkOutTime with
  | none => simp
  | some o => cases o <;> simp

/-! ### Characterisation of `getCurrentSession` -/

theorem gcs_elim {store : List Session} {u : String} {cur : Session}
    (h : getCurrentSession store u = some cur) :
    cur ∈ store ∧ cur.userId = u ∧ jsFalsyCheckOut cur = true ∧
      ∀ x ∈ store, x.userId = u → x.checkInTime ≤ cur.checkInTime := by
  unfold getCurrentSession queryDesc at h
  cases e : (sortDesc (store.filter (fun s => s.userId == u))).head? with
  | none => rw [e] at h; simp at h
  | some s =>
    rw [e] at h
    have h2 : (if jsFalsyCheckOut s = true then some s else none) = some cur := h
    by_cases hj : jsFalsyCheckOut s = true
    · rw [if_pos hj] at h2
      have hsc : s = cur := by simpa using h2
      subst hsc
      have hmem := head?_sortDesc_mem e
      rcases List.mem_filter.mp hmem with ⟨hst, hpu⟩
      refine ⟨hst, by simpa using hpu, hj, ?_⟩
      intro x hx hxu
      exact head?_sortDesc_max e x (List.mem_filter.mpr ⟨hx, by simp [hxu]⟩)
    · rw [if_neg hj] at h2; simp at h2

/-- The first item of the descending query is the user's session with maximal
`checkInTime` (unique by well-formedness). -/
theorem queryDesc_head {store : List Session} {u : String} {x : Session}
    (hwf : WF store) (hx : x ∈ store) (hu : x.userId = u)
    (hmax : ∀ y ∈ store, y.userId = u → y.checkInTime ≤ x.checkInTime) :
    (queryDesc store u).head? = some x := by
  have hxf : x ∈ store.filter (fun s => s.userId == u) :=
    List.mem_filter.mpr ⟨hx, by simp [hu]⟩
  unfold queryDesc
  cases e : (sortDesc (store.filter (fun s => s.userId == u))).head? with
  | none =>
    have hnil : sortDesc (store.filter (fun s => s.userId == u)) = [] := by
      cases e2 : sortDesc (store.filter (fun s => s.userId == u)) with
      | nil => rfl
      | cons a t => rw [e2] at e; simp at e
    rw [sortDesc_eq_nil_iff] at hnil
    rw [hnil] at hxf
    simp at hxf
  | some h =>
    have hhmem := head?_sortDesc_mem e
    rcases List.mem_filter.mp hhmem with ⟨hhst, hhpu⟩
    have hhu : h.userId = u := by simpa using hhpu
    have h1 : h.checkInTime ≤ x.checkInTime := hmax h hhst hhu
    have h2 : x.checkInTime ≤ h.checkInTime := head?_sortDesc_max e x hxf
    rw [wf_key_unique hwf hhst hx (hhu.trans hu.symm) (le_antisymm h1 h2)]

theorem gcs_intro {store : List Session} {u : String} {x : Session}
    (hwf : WF store) (hx : x ∈ store) (hu : x.userId = u)
    (hopen : jsFalsyCheckOut x = true)
    (hmax : ∀ y ∈ store, y.userId = u → y.checkInTime ≤ x.checkInTime) :
    getCurrentSession store u = some x := by
  unfold getCurrentSession
  rw [queryDesc_head hwf hx hu hmax]
  show (if jsFalsyCheckOut x = true then some x else none) = some x
  rw [if_pos hopen]

/-- If the user's maximal session is closed, the resolver reports no open
session. -/
theorem gcs_closed_max {store : List Session} {u : String} {x : Session}
    (hwf : WF store) (hx : x ∈ store) (hu : x.userId = u)
    (hclosed : jsFalsyCheckOut x = false)
    (hmax : ∀ y ∈ store, y.userId = u → y.checkInTime ≤ x.checkInTime) :
    getCurrentSession store u = none := by
  unfold getCurrentSession
  rw [queryDesc_head hwf hx hu hmax]
  show (if jsFalsyCheckOut x = true then some x else none) = none
  rw [hclosed]
  simp

/-- If the resolver reports no open session, then no session of the user that
is maximal in `checkInTime` is open. -/
theorem gcs_none_no_open_max {store : List Session} {u : String}
    (hwf : WF store) (h : getCurrentSession store u = none) :
    ∀ x ∈ store, x.userId = u →
      (∀ y ∈ store, y.userId = u → y.checkInTime ≤ x.checkInTime) →
      jsFalsyCheckOut x = false := by
  intro x hx hu hmax
  by_cases hopen : jsFalsyCheckOut x = true
  · rw [gcs_intro hwf hx hu hopen hmax] at h
    simp at h
  · simpa using hopen

/-! ### Evaluation of the toggle branches -/

theorem dynamoCondClose_ok {store : List Session} {cur : Session}
    (hwf : WF store) (hmem : cur ∈ store) (hcond : closeCondition cur = true)
    (now : Nat) :
    dynamoCondClose store cur.userId cur.checkInTime now
      = .ok (store.map (closeUpd cur.userId cur.checkInTime now)) := by
  unfold dynamoCondClose
  rw [wf_find_eq hwf hmem]
  simp [hcond]

theorem dynamoCondClose_err {store : List Session} {u : String} {t : Nat}
    {s : Session}
    (hf : store.find? (fun x => x.userId == u && x.checkInTime == t) = some s)
    (hcond : closeCondition s = false) (now : Nat) :
    dynamoCondClose store u t now = .error () := by
  unfold dynamoCondClose
  rw [hf]
  simp [hcond]

theorem dynamoCondClose_found_ok {store : List Session} {u : String} {t : Nat}
    {s : Session}
    (hf : store.find? (fun x => x.userId == u && x.checkInTime == t) = some s)
    (hcond : closeCondition s = true) (now : Nat) :
    dynamoCondClose store u t now = .ok (store.map (closeUpd u t now)) := by
  unfold dynamoCondClose
  rw [hf]
  simp [hcond]

theorem dynamoCondClose_missing {store : List Session} {u : String} {t : Nat}
    (hf : store.find? (fun x => x.userId == u && x.checkInTime == t) = none)
    (now : Nat) :
    dynamoCondClose store u t now
      = .ok (store ++ [{ userId := u, checkInTime := t,
                         checkOutTime := some (some now) }]) := by
  unfold dynamoCondClose
  rw [hf]

theorem toggle_eq_closeGiven {store : List Session} {u : String} {cur : Session}
    (hg : getCurrentSession store u = some cur) (now : Nat) :
    handleCheckinToggle store u now = toggleCloseGiven store u cur now := by
  unfold handleCheckinToggle
  rw [hg]

theorem closeGiven_ok {store : List Session} {u : String} {cur : Session}
    {store2 : List Session}
    (h : dynamoCondClose store u cur.checkInTime now = .ok store2) :
    toggleCloseGiven store u cur now
      = (.checkedOutNow cur.checkInTime now, store2) := by
  unfold toggleCloseGiven
  rw [h]

theorem closeGiven_conflict {store : List Session} {u : String} {cur : Session}
    (h : dynamoCondClose store u cur.checkInTime now = .error ()) :
    toggleCloseGiven store u cur now = (.conflict, store) := by
  unfold toggleCloseGiven
  rw [h]

theorem toggle_close_eq {store : List Session} {u : String} {cur : Session}
    (hwf : WF store) (hg : getCurrentSession store u = some cur) (now : Nat) :
    handleCheckinToggle store u now
      = (.checkedOutNow cur.checkInTime now,
         store.map (closeUpd u cur.checkInTime now)) := by
  obtain ⟨hmem, hu, hopen, _⟩ := gcs_elim hg
  subst hu
  rw [jsFalsy_eq_closeCondition] at hopen
  rw [toggle_eq_closeGiven hg now]
  exact closeGiven_ok (dynamoCondClose_ok hwf hmem hopen now)

theorem toggle_open_eq {store : List Session} {u : String}
    (hg : getCurrentSession store u = none) (now : Nat) :
    handleCheckinToggle store u now
      = (.checkedInNow now, dynamoPut store { userId := u, checkInTime := now }) := by
  unfold handleCheckinToggle
  rw [hg]

theorem find?_map_closeUpd (store : List Session) (u : String) (t e : Nat) :
    (store.map (closeUpd u t e)).find? (fun s => s.userId == u && s.checkInTime == t)
      = (store.find? (fun s => s.userId == u && s.checkInTime == t)).map
          (closeUpd u t e) := by
  induction store with
  | nil => rfl
  | cons x xs ih =>
    rw [List.map_cons]
    by_cases hx : (x.userId == u && x.checkInTime == t) = true
    · have hx2 : ((closeUpd u t e x).userId == u
          && (closeUpd u t e x).checkInTime == t) = true := by
        rw [closeUpd_userId, closeUpd_checkInTime]; exact hx
      simp [List.find?_cons, hx, hx2]
    · have hx2 : ((closeUpd u t e x).userId == u
          && (closeUpd u t e x).checkInTime == t) = false := by
        rw [closeUpd_userId, closeUpd_checkInTime]
        simpa using hx
      have hx3 : (x.userId == u && x.checkInTime == t) = false := by simpa using hx
      simp [List.find?_cons, hx2, hx3, ih]

/-! ### Frame lemmas: a toggle for one user leaves other users' items alone -/

theorem filter_filter_of_imp {p q : Session → Bool}
    (h : ∀ s, p s = true → q s = true) (l : List Session) :
    (l.filter q).filter p = l.filter p := by
  induction l with
  | nil => rfl
  | cons x xs ih =>
    by_cases hp : p x = true
    · have hq := h x hp
      simp [List.filter_cons, hp, hq, ih]
    · by_cases hq : q x = true
      · simp [List.filter_cons, hp, hq, ih]
      · simp [List.filter_cons, hp, hq, ih]

theorem filter_dynamoPut_ne {store : List Session} {item : Session} {v : String}
    (hne : item.userId ≠ v) :
    (dynamoPut store item).filter (fun s => s.userId == v)
      = store.filter (fun s => s.userId == v) := by
  unfold dynamoPut
  rw [List.filter_append]
  have h1 : List.filter (fun s => s.userId == v) [item] = [] := by simp [hne]
  rw [h1, List.append_nil]
  apply filter_filter_of_imp
  intro s hs
  simp only [beq_iff_eq] at hs
  simp only [Bool.not_eq_eq_eq_not, Bool.not_true, Bool.and_eq_false_imp,
    beq_eq_false_iff_ne, ne_eq, beq_iff_eq, Bool.not_eq_true]
  intro h
  exact absurd (h.symm.trans hs) hne

theorem filter_map_closeUpd_ne {store : List Session} {u v : String}
    (huv : u ≠ v) (t e : Nat) :
    (store.map (closeUpd u t e)).filter (fun s => s.userId == v)
      = store.filter (fun s => s.userId == v) := by
  induction store with
  | nil => rfl
  | cons x xs ih =>
    rw [List.map_cons, List.filter_cons, List.filter_cons]
    by_cases hxv : x.userId = v
    · have hxu : (x.userId == u && x.checkInTime == t) = false := by
        have : x.userId ≠ u := fun h => huv (h.symm.trans hxv)
        simp [this]
      have hid : closeUpd u t e x = x := by unfold closeUpd; rw [hxu]; simp
      rw [hid, ih]
    · have h1 : ((closeUpd u t e x).userId == v) = false := by
        rw [closeUpd_userId]; simp [hxv]
      have h2 : (x.userId == v) = false := by simp [hxv]
      rw [h1, h2]
      simp [ih]

theorem filter_append_singleton_ne {store : List Session} {item : Session}
    {v : String} (hne : item.userId ≠ v) :
    (store ++ [item]).filter (fun s => s.userId == v)
      = store.filter (fun s => s.userId == v) := by
  rw [List.filter_append]
  simp [hne]

theorem filter_toggle_ne {store : List Session} {u v : String}
    (huv : u ≠ v) (now : Nat) :
    ((handleCheckinToggle store u now).2).filter (fun s => s.userId == v)
      = store.filter (fun s => s.userId == v) := by
  cases hg : getCurrentSession store u with
  | none =>
    rw [toggle_open_eq hg]
    exact filter_dynamoPut_ne huv
  | some cur =>
    rw [toggle_eq_closeGiven hg now]
    cases hf : store.find?
        (fun s => s.userId == u && s.checkInTime == cur.checkInTime) with
    | some s =>
      by_cases hc : closeCondition s = true
      · rw [closeGiven_ok (dynamoCondClose_found_ok hf hc now)]
        exact filter_map_closeUpd_ne huv cur.checkInTime now
      · have hc2 : closeCondition s = false := by simpa using hc
        rw [closeGiven_conflict (dynamoCondClose_err hf hc2 now)]
    | none =>
      rw [closeGiven_ok (dynamoCondClose_missing hf now)]
      exact filter_append_singleton_ne
        (show ({ userId := u, checkInTime := cur.checkInTime,
                 checkOutTime := some (some now) } : Session).userId ≠ v from huv)

/-! ### The at-most-one-open-session invariant -/

theorem mem_dynamoPut {store : List Session} {item x : Session} :
    x ∈ dynamoPut store item ↔
      (x ∈ store ∧ ¬(x.userId = item.userId ∧ x.checkInTime = item.checkInTime))
        ∨ x = item := by
  unfold dynamoPut
  rw [List.mem_append, List.mem_filter]
  simp only [List.mem_singleton, Bool.not_eq_eq_eq_not, Bool.not_true,
    Bool.and_eq_false_imp, beq_eq_false_iff_ne, ne_eq, beq_iff_eq]
  constructor
  · rintro (⟨hx, hk⟩ | rfl)
    · exact Or.inl ⟨hx, fun hc => hk hc.1 hc.2⟩
    · exact Or.inr rfl
  · rintro (⟨hx, hk⟩ | rfl)
    · exact Or.inl ⟨hx, fun h1 h2 => hk ⟨h1, h2⟩⟩
    · exact Or.inr rfl

/-- One sequential toggle preserves the invariant: the store stays
well-formed, every open session of every user stays maximal, and all
`checkInTime`s stay bounded by the clock. -/
theorem toggle_step_inv {store : List Session} {u : String} {now : Nat}
    (hwf : WF store) (hgood : ∀ w, GoodUser w store)
    (hbound : ∀ s ∈ store, s.checkInTime ≤ now) :
    WF (handleCheckinToggle store u now).2
      ∧ (∀ w, GoodUser w (handleCheckinToggle store u now).2)
      ∧ (∀ s ∈ (handleCheckinToggle store u now).2, s.checkInTime ≤ now) := by
  cases hg : getCurrentSession store u with
  | some cur =>
    rw [toggle_close_eq hwf hg now]
    refine ⟨wf_map_closeUpd hwf u cur.checkInTime now, ?_, ?_⟩
    · intro w s hs hsu hsopen
      rcases List.mem_map.mp hs with ⟨x, hx, hxe⟩
      by_cases hk : (x.userId == u && x.checkInTime == cur.checkInTime) = true
      · exfalso
        have : s.checkOutTime = some (some now) := by
          rw [← hxe]; unfold closeUpd; rw [if_pos hk]
        rw [jsFalsyCheckOut] at hsopen
        rw [this] at hsopen
        simp at hsopen
      · have hxs : s = x := by
          rw [← hxe]; unfold closeUpd; rw [if_neg hk]
        subst hxs
        intro y hy hyu
        rcases List.mem_map.mp hy with ⟨z, hz, hze⟩
        have hzu : z.userId = w := by
          rw [← closeUpd_userId u cur.checkInTime now z, hze]; exact hyu
        have hzt : y.checkInTime = z.checkInTime := by
          rw [← hze, closeUpd_checkInTime]
        rw [hzt]
        exact hgood w s hx hsu hsopen z hz hzu
    · intro s hs
      rcases List.mem_map.mp hs with ⟨x, hx, hxe⟩
      have : s.checkInTime = x.checkInTime := by
        rw [← hxe, closeUpd_checkInTime]
      rw [this]
      exact hbound x hx
  | none =>
    rw [toggle_open_eq hg now]
    refine ⟨wf_dynamoPut hwf _, ?_, ?_⟩
    · intro w s hs hsu hsopen
      rcases mem_dynamoPut.mp hs with ⟨hsst, _⟩ | rfl
      · by_cases hwu : w = u
        · exfalso
          subst hwu
          have hmax : ∀ y ∈ store, y.userId = w → y.checkInTime ≤ s.checkInTime :=
            hgood w s hsst hsu hsopen
          rw [gcs_intro hwf hsst hsu hsopen hmax] at hg
          simp at hg
        · intro y hy hyu
          rcases mem_dynamoPut.mp hy with ⟨hyst, _⟩ | rfl
          · exact hgood w s hsst hsu hsopen y hyst hyu
          · exact absurd hyu.symm (by simpa using hwu)
      · intro y hy hyu
        rcases mem_dynamoPut.mp hy with ⟨hyst, _⟩ | rfl
        · exact hbound y hyst
        · exact le_refl _
    · intro s hs
      rcases mem_dynamoPut.mp hs with ⟨hsst, _⟩ | rfl
      · exact hbound s hsst
      · exact le_refl _

theorem status_some {store : List Session} {u : String} {cur : Session}
    (hg : getCurrentSession store u = some cur) :
    handleCheckinStatus store u
      = ({ checkedIn := true, currentCheckInTime := some cur.checkInTime },
         store) := by
  unfold handleCheckinStatus
  rw [hg]

theorem status_none {store : List Session} {u : String}
    (hg : getCurrentSession store u = none) :
    handleCheckinStatus store u
      = ({ checkedIn := false, currentCheckInTime := none }, store) := by
  unfold handleCheckinStatus
  rw [hg]

theorem head?_take50 (l : List Session) : (l.take 50).head? = l.head? := by
  cases l <;> rfl

/-- Sequential toggles starting from an invariant-satisfying store with
non-decreasing clock readings preserve the invariant. -/
theorem runToggles_inv {ops : List (String × Nat)} {store : List Session}
    (hwf : WF store) (hgood : ∀ w, GoodUser w store)
    (hb : ∀ p ∈ ops, ∀ s ∈ store, s.checkInTime ≤ p.2)
    (hmono : (ops.map Prod.snd).Pairwise (· ≤ ·)) :
    WF (runToggles ops store) ∧ ∀ w, GoodUser w (runToggles ops store) := by
  induction ops generalizing store with
  | nil => exact ⟨hwf, hgood⟩
  | cons p rest ih =>
    obtain ⟨u, t⟩ := p
    have hb0 : ∀ s ∈ store, s.checkInTime ≤ t :=
      fun s hs => hb (u, t) (List.mem_cons_self _ _) s hs
    obtain ⟨hwf2, hgood2, hb2⟩ := @toggle_step_inv store u t hwf hgood hb0
    have hmono1 : (t :: rest.map Prod.snd).Pairwise (· ≤ ·) := by
      simpa using hmono
    rcases List.pairwise_cons.mp hmono1 with ⟨hthead, hmono2⟩
    have ht_le : ∀ p2 ∈ rest, t ≤ p2.2 :=
      fun p2 hp2 => hthead p2.2 (List.mem_map_of_mem _ hp2)
    have hb3 : ∀ p2 ∈ rest, ∀ s ∈ (handleCheckinToggle store u t).2,
        s.checkInTime ≤ p2.2 :=
      fun p2 hp2 s hs => le_trans (hb2 s hs) (ht_le p2 hp2)
    have hmono3 : (rest.map Prod.snd).Pairwise (· ≤ ·) := hmono2
    exact ih hwf2 hgood2 hb3 hmono3

/-- A well-formed store in which every open session of `u` is maximal has at
most one open session for `u`. -/
theorem atMostOne_open {store : List Session} {u : String} (hwf : WF store)
    (hgood : GoodUser u store) :
    (store.filter (fun s => s.userId == u && jsFalsyCheckOut s)).length ≤ 1 := by
  cases e : store.filter (fun s => s.userId == u && jsFalsyCheckOut s) with
  | nil => simp
  | cons a t =>
    cases t with
    | nil => simp
    | cons b t2 =>
      exfalso
      have hpw := (hwf.filter (fun s => s.userId == u && jsFalsyCheckOut s))
      rw [e] at hpw
      rcases List.pairwise_cons.mp hpw with ⟨hab, _⟩
      have hamem : a ∈ store.filter (fun s => s.userId == u && jsFalsyCheckOut s) := by
        rw [e]; exact List.mem_cons_self _ _
      have hbmem : b ∈ store.filter (fun s => s.userId == u && jsFalsyCheckOut s) := by
        rw [e]; exact List.mem_cons_of_mem _ (List.mem_cons_self _ _)
      rcases List.mem_filter.mp hamem with ⟨hast, hap⟩
      rcases List.mem_filter.mp hbmem with ⟨hbst, hbp⟩
      rcases (Bool.and_eq_true _ _).mp hap with ⟨hau, hao⟩
      rcases (Bool.and_eq_true _ _).mp hbp with ⟨hbu, hbo⟩
      have hau2 : a.userId = u := by simpa using hau
      have hbu2 : b.userId = u := by simpa using hbu
      have h1 : a.checkInTime ≤ b.checkInTime :=
        hgood b hbst hbu2 hbo a hast hau2
      have h2 : b.checkInTime ≤ a.checkInTime :=
        hgood a hast hau2 hao b hbst hbu2
      rcases hab b (List.mem_cons_self _ _) with h | h
      · exact h (hau2.trans hbu2.symm)
      · exact h (le_antisymm h1 h2)

theorem pairwise_and {R S : Session → Session → Prop} {l : List Session}
    (h1 : l.Pairwise R) (h2 : l.Pairwise S) :
    l.Pairwise (fun a b => R a b ∧ S a b) := by
  induction l with
  | nil => exact List.Pairwise.nil
  | cons x xs ih =>
    rcases List.pairwise_cons.mp h1 with ⟨hx1, hxs1⟩
    rcases List.pairwise_cons.mp h2 with ⟨hx2, hxs2⟩
    exact List.pairwise_cons.mpr
      ⟨fun b hb => ⟨hx1 b hb, hx2 b hb⟩, ih hxs1 hxs2⟩

theorem pairwise_imp_mem {R S : Session → Session → Prop} {l : List Session}
    (himp : ∀ a ∈ l, ∀ b ∈ l, R a b → S a b) (h : l.Pairwise R) :
    l.Pairwise S := by
  induction l with
  | nil => exact List.Pairwise.nil
  | cons x xs ih =>
    rcases List.pairwise_cons.mp h with ⟨hx, hxs⟩
    refine List.pairwise_cons.mpr ⟨?_, ?_⟩
    · intro b hb
      exact himp x (List.mem_cons_self _ _) b (List.mem_cons_of_mem _ hb)
        (hx b hb)
    · exact ih
        (fun a ha b hb hr =>
          himp a (List.mem_cons_of_mem _ ha) b (List.mem_cons_of_mem _ hb) hr)
        hxs

/-! ## Claims -/

/-- C1: At-most-one-open-session invariant — for every userId, starting from
an empty session log, after any sequence of sequential `handleCheckinToggle`
operations (whose clock readings, taken in real time, are non-decreasing) at
most one stored session for that userId has an absent (or null)
`checkOutTime`. -/
theorem claim_toggles_at_most_one_open (ops : List (String × Nat)) (u : String)
    (hmono : (ops.map Prod.snd).Pairwise (· ≤ ·)) :
    ((runToggles ops []).filter
      (fun s => s.userId == u && jsFalsyCheckOut s)).length ≤ 1 := by
  have hwfnil : WF ([] : List Session) := List.Pairwise.nil
  have hgoodnil : ∀ w, GoodUser w ([] : List Session) := by
    intro w s hs
    simp at hs
  have hbnil : ∀ p ∈ ops, ∀ s ∈ ([] : List Session), s.checkInTime ≤ p.2 := by
    intro p hp s hs
    simp at hs
  obtain ⟨hwf, hgood⟩ := runToggles_inv hwfnil hgoodnil hbnil hmono
  exact atMostOne_open hwf (hgood u)

/-- Witness for C1 at a concrete toggle sequence. -/
theorem claim_toggles_at_most_one_open_case :
    (([(("a" : String), 1), ("a", 2), ("b", 2), ("a", 3)].map
        Prod.snd).Pairwise (· ≤ ·))
    ∧ ((runToggles [(("a" : String), 1), ("a", 2), ("b", 2), ("a", 3)] []).filter
        (fun s => s.userId == "a" && jsFalsyCheckOut s)).length ≤ 1 :=
  ⟨by decide, claim_toggles_at_most_one_open _ "a" (by decide)⟩

/-- C2: Concurrent-close conflict — if two toggle calls both observe the same
open session `cur` and race to close it, the first write wins with 200 and
sets `checkOutTime`; the second write's condition fails, the handler returns
409 Conflict without retrying and without touching the store; afterwards the
session at `cur`'s key carries exactly the winner's `checkOutTime`. -/
theorem claim_concurrent_close_conflict (store : List Session) (u : String)
    (cur : Session) (hwf : WF store)
    (hg : getCurrentSession store u = some cur) (t1 t2 : Nat) :
    handleCheckinToggle store u t1 = toggleCloseGiven store u cur t1
    ∧ (toggleCloseGiven store u cur t1).1 = .checkedOutNow cur.checkInTime t1
    ∧ (toggleCloseGiven (toggleCloseGiven store u cur t1).2 u cur t2).1
        = .conflict
    ∧ ((toggleCloseGiven (toggleCloseGiven store u cur t1).2 u cur t2).1).statusCode
        = 409
    ∧ (toggleCloseGiven (toggleCloseGiven store u cur t1).2 u cur t2).2
        = (toggleCloseGiven store u cur t1).2
    ∧ { cur with checkOutTime := some (some t1) }
        ∈ (toggleCloseGiven store u cur t1).2
    ∧ ∀ x ∈ (toggleCloseGiven store u cur t1).2, x.userId = u →
        x.checkInTime = cur.checkInTime →
          x = { cur with checkOutTime := some (some t1) } := by
  obtain ⟨hmem, hu, hopen, _⟩ := gcs_elim hg
  subst hu
  rw [jsFalsy_eq_closeCondition] at hopen
  have hA : toggleCloseGiven store cur.userId cur t1
      = (.checkedOutNow cur.checkInTime t1,
         store.map (closeUpd cur.userId cur.checkInTime t1)) :=
    closeGiven_ok (dynamoCondClose_ok hwf hmem hopen t1)
  have hkey : (cur.userId == cur.userId && cur.checkInTime == cur.checkInTime)
      = true := by simp
  have hclosedUpd : closeUpd cur.userId cur.checkInTime t1 cur
      = { cur with checkOutTime := some (some t1) } := by
    unfold closeUpd
    rw [if_pos hkey]
  have hfind1 : store.find?
      (fun s => s.userId == cur.userId && s.checkInTime == cur.checkInTime)
      = some cur := wf_find_eq hwf hmem
  have hfind2 : (store.map (closeUpd cur.userId cur.checkInTime t1)).find?
      (fun s => s.userId == cur.userId && s.checkInTime == cur.checkInTime)
      = some { cur with checkOutTime := some (some t1) } := by
    rw [find?_map_closeUpd, hfind1]
    simp [hclosedUpd]
  have hcondF : closeCondition { cur with checkOutTime := some (some t1) }
      = false := by
    simp [closeCondition]
  have hB : toggleCloseGiven (store.map (closeUpd cur.userId cur.checkInTime t1))
      cur.userId cur t2
      = (.conflict, store.map (closeUpd cur.userId cur.checkInTime t1)) :=
    closeGiven_conflict (dynamoCondClose_err hfind2 hcondF t2)
  refine ⟨toggle_eq_closeGiven hg t1, ?_, ?_, ?_, ?_, ?_, ?_⟩
  · rw [hA]
  · simp only [hA, hB]
  · simp only [hA, hB]
    rfl
  · simp only [hA, hB]
  · simp only [hA]
    exact hclosedUpd ▸ List.mem_map_of_mem _ hmem
  · simp only [hA]
    intro x hx hxu hxt
    rcases List.mem_map.mp hx with ⟨z, hz, hze⟩
    have hzu : z.userId = cur.userId := by
      rw [← closeUpd_userId cur.userId cur.checkInTime t1 z, hze, hxu]
    have hzt : z.checkInTime = cur.checkInTime := by
      rw [← closeUpd_checkInTime cur.userId cur.checkInTime t1 z, hze, hxt]
    have hzc : z = cur := wf_key_unique hwf hz hmem hzu hzt
    rw [← hze, hzc, hclosedUpd]

/-- Witness for C2 at a concrete store with one open session. -/
theorem claim_concurrent_close_conflict_case :
    WF [({ userId := "u", checkInTime := 5 } : Session)]
    ∧ getCurrentSession [({ userId := "u", checkInTime := 5 } : Session)] "u"
        = some { userId := "u", checkInTime := 5 }
    ∧ (toggleCloseGiven
        (toggleCloseGiven [({ userId := "u", checkInTime := 5 } : Session)] "u"
          { userId := "u", checkInTime := 5 } 7).2 "u"
        { userId := "u", checkInTime := 5 } 9).1 = .conflict :=
  ⟨List.pairwise_singleton _ _, by decide,
   (claim_concurrent_close_conflict
      [({ userId := "u", checkInTime := 5 } : Session)] "u"
      { userId := "u", checkInTime := 5 }
      (List.pairwise_singleton _ _) (by decide) 7 9).2.2.1⟩

/-- C3 counterexample: with a closed session `(u, 5)` already stored, a toggle
whose fresh timestamp collides with that key does not fail with a
DuplicateKey/Conflict error — it answers 200 and the `PutItem` silently
replaces the stored record, losing its `checkOutTime`. -/
theorem claim_duplicate_key_counterexample :
    (handleCheckinToggle
        [({ userId := "u", checkInTime := 5,
            checkOutTime := some (some 6) } : Session)] "u" 5).1
      = .checkedInNow 5
    ∧ ((handleCheckinToggle
        [({ userId := "u", checkInTime := 5,
            checkOutTime := some (some 6) } : Session)] "u" 5).1).statusCode
      = 200
    ∧ ({ userId := "u", checkInTime := 5,
         checkOutTime := some (some 6) } : Session)
        ∉ (handleCheckinToggle
            [({ userId := "u", checkInTime := 5,
                checkOutTime := some (some 6) } : Session)] "u" 5).2
    ∧ (handleCheckinToggle
        [({ userId := "u", checkInTime := 5,
            checkOutTime := some (some 6) } : Session)] "u" 5).2
      = [{ userId := "u", checkInTime := 5 }] := by
  decide

/-- C3 (amended): when the toggle opens a session whose timestamp equals an
existing session's `checkInTime` for that user, the unconditional `PutItem`
reports success and replaces the stored record: afterwards the only item at
that key is the fresh open one. -/
theorem claim_duplicate_key_overwrite (store : List Session) (u : String)
    (s0 : Session) (hg : getCurrentSession store u = none)
    (_hs0 : s0 ∈ store) (_hu : s0.userId = u) :
    (handleCheckinToggle store u s0.checkInTime).1 = .checkedInNow s0.checkInTime
    ∧ ({ userId := u, checkInTime := s0.checkInTime } : Session)
        ∈ (handleCheckinToggle store u s0.checkInTime).2
    ∧ ∀ x ∈ (handleCheckinToggle store u s0.checkInTime).2,
        x.userId = u → x.checkInTime = s0.checkInTime →
          x = { userId := u, checkInTime := s0.checkInTime } := by
  rw [toggle_open_eq hg]
  refine ⟨rfl, ?_, ?_⟩
  · exact mem_dynamoPut.mpr (Or.inr rfl)
  · intro x hx hxu hxt
    rcases mem_dynamoPut.mp hx with ⟨_, hk⟩ | rfl
    · exact absurd ⟨hxu, hxt⟩ hk
    · rfl

/-- Witness for the amended C3 at a concrete store with a closed session. -/
theorem claim_duplicate_key_overwrite_case :
    getCurrentSession
        [({ userId := "v", checkInTime := 3,
            checkOutTime := some (some 4) } : Session)] "v" = none
    ∧ ({ userId := "v", checkInTime := 3,
         checkOutTime := some (some 4) } : Session)
        ∈ [({ userId := "v", checkInTime := 3,
              checkOutTime := some (some 4) } : Session)]
    ∧ ({ userId := "v", checkInTime := 3 } : Session)
        ∈ (handleCheckinToggle
            [({ userId := "v", checkInTime := 3,
                checkOutTime := some (some 4) } : Session)] "v" 3).2 :=
  ⟨by decide, by decide,
   (claim_duplicate_key_overwrite
      [({ userId := "v", checkInTime := 3,
          checkOutTime := some (some 4) } : Session)] "v"
      { userId := "v", checkInTime := 3, checkOutTime := some (some 4) }
      (by decide) (by decide) (by decide)).2.1⟩

/-- C4: Resolver correctness — the status operation reports open exactly when
the user's most recent session exists and has an absent (or null)
`checkOutTime`; a user with no sessions is reported closed; resolving performs
no write. -/
theorem claim_status_resolver (store : List Session) (u : String)
    (hwf : WF store) :
    ((handleCheckinStatus store u).1.checkedIn = true ↔
      ∃ s, s ∈ store ∧ s.userId = u ∧ jsFalsyCheckOut s = true ∧
        ∀ y ∈ store, y.userId = u → y.checkInTime ≤ s.checkInTime)
    ∧ ((∀ s ∈ store, s.userId ≠ u) →
        (handleCheckinStatus store u).1.checkedIn = false)
    ∧ (handleCheckinStatus store u).2 = store := by
  refine ⟨?_, ?_, ?_⟩
  · cases hg : getCurrentSession store u with
    | some cur =>
      rw [status_some hg]
      obtain ⟨hmem, hu, hopen, hmax⟩ := gcs_elim hg
      constructor
      · intro _
        exact ⟨cur, hmem, hu, hopen, hmax⟩
      · intro _
        rfl
    | none =>
      rw [status_none hg]
      constructor
      · intro h
        exact absurd h Bool.false_ne_true
      · rintro ⟨s, hmem, hu, hopen, hmax⟩
        rw [gcs_intro hwf hmem hu hopen hmax] at hg
        simp at hg
  · intro hall
    cases hg : getCurrentSession store u with
    | some cur =>
      obtain ⟨hmem, hu, _, _⟩ := gcs_elim hg
      exact absurd hu (hall cur hmem)
    | none =>
      rw [status_none hg]
  · cases hg : getCurrentSession store u with
    | some cur => rw [status_some hg]
    | none => rw [status_none hg]

/-- Witness for C4 at a concrete store with one closed session. -/
theorem claim_status_resolver_case :
    WF [({ userId := "w", checkInTime := 2,
           checkOutTime := some (some 3) } : Session)]
    ∧ (handleCheckinStatus
        [({ userId := "w", checkInTime := 2,
            checkOutTime := some (some 3) } : Session)] "w").2
      = [({ userId := "w", checkInTime := 2,
            checkOutTime := some (some 3) } : Session)] :=
  ⟨by unfold WF; decide,
   (claim_status_resolver
      [({ userId := "w", checkInTime := 2,
          checkOutTime := some (some 3) } : Session)] "w"
      (by unfold WF; decide)).2.2⟩

/-- C5: Round trip — from a state where the user is resolved closed and the
clock is fresh, toggling opens at `t1`, toggling again closes at `t2 ≥ t1`,
the subsequent status is closed, and the first history entry shows the
session with both times set and `checkOutTime ≥ checkInTime`. -/
theorem claim_round_trip (store : List Session) (u : String) (t1 t2 : Nat)
    (hwf : WF store) (hg : getCurrentSession store u = none)
    (hlt : ∀ s ∈ store, s.userId = u → s.checkInTime < t1) (h12 : t1 ≤ t2) :
    (handleCheckinToggle store u t1).1 = .checkedInNow t1
    ∧ (handleCheckinToggle (handleCheckinToggle store u t1).2 u t2).1
        = .checkedOutNow t1 t2
    ∧ (handleCheckinStatus
        (handleCheckinToggle (handleCheckinToggle store u t1).2 u t2).2
        u).1.checkedIn = false
    ∧ (handleCheckinHistory
        (handleCheckinToggle (handleCheckinToggle store u t1).2 u t2).2
        u).1.head?
        = some ({ checkInTime := t1, checkOutTime := some t2 } : HistoryEntry)
    ∧ t1 ≤ t2 := by
  have h1 : handleCheckinToggle store u t1
      = (.checkedInNow t1,
         dynamoPut store { userId := u, checkInTime := t1 }) :=
    toggle_open_eq hg t1
  have hwf1 : WF (dynamoPut store { userId := u, checkInTime := t1 }) :=
    wf_dynamoPut hwf _
  have hmem1 : ({ userId := u, checkInTime := t1 } : Session)
      ∈ dynamoPut store { userId := u, checkInTime := t1 } :=
    mem_dynamoPut.mpr (Or.inr rfl)
  have hmax1 : ∀ y ∈ dynamoPut store { userId := u, checkInTime := t1 },
      y.userId = u → y.checkInTime ≤ t1 := by
    intro y hy hyu
    rcases mem_dynamoPut.mp hy with ⟨hyst, _⟩ | rfl
    · exact le_of_lt (hlt y hyst hyu)
    · exact le_refl _
  have hg1 : getCurrentSession (dynamoPut store { userId := u, checkInTime := t1 }) u
      = some { userId := u, checkInTime := t1 } :=
    gcs_intro hwf1 hmem1 rfl rfl hmax1
  have h2 : handleCheckinToggle
      (dynamoPut store { userId := u, checkInTime := t1 }) u t2
      = (.checkedOutNow t1 t2,
         (dynamoPut store { userId := u, checkInTime := t1 }).map
           (closeUpd u t1 t2)) :=
    toggle_close_eq hwf1 hg1 t2
  have hwf2 : WF ((dynamoPut store { userId := u, checkInTime := t1 }).map
      (closeUpd u t1 t2)) := wf_map_closeUpd hwf1 u t1 t2
  have hclose1 : closeUpd u t1 t2 ({ userId := u, checkInTime := t1 } : Session)
      = { userId := u, checkInTime := t1, checkOutTime := some (some t2) } := by
    unfold closeUpd
    rw [if_pos (by simp)]
  have hmem2 : ({ userId := u, checkInTime := t1,
                  checkOutTime := some (some t2) } : Session)
      ∈ (dynamoPut store { userId := u, checkInTime := t1 }).map
          (closeUpd u t1 t2) := by
    rw [← hclose1]
    exact List.mem_map_of_mem _ hmem1
  have hmax2 : ∀ y ∈ (dynamoPut store { userId := u, checkInTime := t1 }).map
      (closeUpd u t1 t2), y.userId = u → y.checkInTime ≤ t1 := by
    intro y hy hyu
    rcases List.mem_map.mp hy with ⟨z, hz, hze⟩
    have hyt : y.checkInTime = z.checkInTime := by
      rw [← hze, closeUpd_checkInTime]
    rw [hyt]
    apply hmax1 z hz
    rw [← closeUpd_userId u t1 t2 z, hze]
    exact hyu
  have hq2 : (queryDesc ((dynamoPut store { userId := u, checkInTime := t1 }).map
      (closeUpd u t1 t2)) u).head?
      = some { userId := u, checkInTime := t1, checkOutTime := some (some t2) } :=
    queryDesc_head hwf2 hmem2 rfl hmax2
  have hg2 : getCurrentSession ((dynamoPut store { userId := u, checkInTime := t1 }).map
      (closeUpd u t1 t2)) u = none :=
    gcs_closed_max hwf2 hmem2 rfl rfl hmax2
  refine ⟨by rw [h1], ?_, ?_, ?_, h12⟩
  · simp only [h1, h2]
  · simp only [h1, h2]
    rw [status_none hg2]
  · simp only [h1, h2]
    unfold handleCheckinHistory
    rw [List.head?_map, head?_take50, hq2]
    rfl

/-- Witness for C5 starting from the empty store. -/
theorem claim_round_trip_case :
    WF ([] : List Session)
    ∧ getCurrentSession [] "c" = none
    ∧ (∀ s ∈ ([] : List Session), s.userId = "c" → s.checkInTime < 4)
    ∧ (4 : Nat) ≤ 6
    ∧ (handleCheckinHistory
        (handleCheckinToggle (handleCheckinToggle [] "c" 4).2 "c" 6).2
        "c").1.head?
      = some ({ checkInTime := 4, checkOutTime := some 6 } : HistoryEntry) :=
  ⟨by unfold WF; decide, by decide, by decide, by decide,
   (claim_round_trip [] "c" 4 6 (by unfold WF; decide) (by decide) (by decide)
      (by decide)).2.2.2.1⟩

/-- C6: History ordering and limit — the sessions returned by the history
operation are strictly decreasing in `checkInTime`, contain at most 50
entries, and are exactly the first 50 of the user's sessions in descending
order (the most recent ones); the read leaves the store unchanged. -/
theorem claim_history_desc_limit (store : List Session) (u : String)
    (hwf : WF store) :
    ((handleCheckinHistory store u).1).Pairwise
        (fun a b => b.checkInTime < a.checkInTime)
    ∧ ((handleCheckinHistory store u).1).length ≤ 50
    ∧ (handleCheckinHistory store u).1
        = ((queryDesc store u).take 50).map
            (fun s => { checkInTime := s.checkInTime,
                        checkOutTime := normCheckOut s.checkOutTime })
    ∧ (handleCheckinHistory store u).2 = store := by
  refine ⟨?_, ?_, rfl, rfl⟩
  · have hfilterPW : (store.filter (fun s => s.userId == u)).Pairwise
        (fun a b => a.userId ≠ b.userId ∨ a.checkInTime ≠ b.checkInTime) :=
      hwf.filter _
    have hdist := pairwise_symm_sortDesc
      (fun a b hab => hab.imp Ne.symm Ne.symm) hfilterPW
    have hsorted := sortDesc_sorted (store.filter (fun s => s.userId == u))
    have hcomb := pairwise_and hsorted hdist
    have hstrict : (sortDesc (store.filter (fun s => s.userId == u))).Pairwise
        (fun a b => b.checkInTime < a.checkInTime) := by
      refine pairwise_imp_mem ?_ hcomb
      intro a ha b hb hab
      have hau : a.userId = u := by
        simpa using (List.mem_filter.mp (mem_sortDesc.mp ha)).2
      have hbu : b.userId = u := by
        simpa using (List.mem_filter.mp (mem_sortDesc.mp hb)).2
      rcases hab with ⟨hle, huid | hci⟩
      · exact absurd (hau.trans hbu.symm) huid
      · exact lt_of_le_of_ne hle (Ne.symm hci)
    have htake : ((sortDesc (store.filter (fun s => s.userId == u))).take
        50).Pairwise (fun a b => b.checkInTime < a.checkInTime) :=
      hstrict.sublist (List.take_sublist _ _)
    exact List.pairwise_map.mpr htake
  · show (((queryDesc store u).take 50).map _).length ≤ 50
    rw [List.length_map, List.length_take]
    exact Nat.min_le_left _ _

/-- Witness for C6 at a concrete two-session store. -/
theorem claim_history_desc_limit_case :
    WF [({ userId := "h", checkInTime := 1,
           checkOutTime := some (some 2) } : Session),
        { userId := "h", checkInTime := 3 }]
    ∧ ((handleCheckinHistory
        [({ userId := "h", checkInTime := 1,
            checkOutTime := some (some 2) } : Session),
         { userId := "h", checkInTime := 3 }] "h").1).Pairwise
        (fun a b => b.checkInTime < a.checkInTime) :=
  ⟨by unfold WF; decide,
   (claim_history_desc_limit
      [({ userId := "h", checkInTime := 1,
          checkOutTime := some (some 2) } : Session),
       { userId := "h", checkInTime := 3 }] "h" (by unfold WF; decide)).1⟩

/-- C7 counterexample: with `start > end` the admin ranged-history handler
does not fail with an InvalidRange error — it answers 200 with an empty
session list. -/
theorem claim_ranged_history_counterexample :
    (handleAdminCheckinHistory
        [({ userId := "u", checkInTime := 4 } : Session)] (some 5) (some 3)).1
      = .ok []
    ∧ (handleAdminCheckinHistory
        [({ userId := "u", checkInTime := 4 } : Session)] (some 5) (some 3)).1
      ≠ .badRequest := by
  decide

/-- C7 (amended): the ranged-history operation fails (400) exactly when
`start` or `end` is missing; with both present it returns 200 with exactly
the sessions whose `checkInTime` lies in the inclusive range — an empty list
(not an error) when `start > end` — and performs no write. -/
theorem claim_ranged_history_validation (store : List Session) (a b : Nat)
    (e : AdminHistoryEntry) :
    (handleAdminCheckinHistory store none (some b)).1 = .badRequest
    ∧ (handleAdminCheckinHistory store (some a) none).1 = .badRequest
    ∧ (handleAdminCheckinHistory store none none).1 = .badRequest
    ∧ (∃ L, (handleAdminCheckinHistory store (some a) (some b)).1 = .ok L
        ∧ (e ∈ L ↔ ∃ s, s ∈ store ∧ a ≤ s.checkInTime ∧ s.checkInTime ≤ b
            ∧ adminProj s = e))
    ∧ (handleAdminCheckinHistory store (some a) (some b)).2 = store := by
  refine ⟨rfl, rfl, rfl, ⟨_, rfl, ?_⟩, rfl⟩
  constructor
  · intro he
    rcases List.mem_map.mp he with ⟨s, hs, hse⟩
    rcases List.mem_filter.mp (mem_sortDesc.mp hs) with ⟨hst, hp⟩
    rcases (Bool.and_eq_true _ _).mp hp with ⟨h1, h2⟩
    exact ⟨s, hst, by simpa using h1, by simpa using h2, hse⟩
  · rintro ⟨s, hst, h1, h2, hse⟩
    refine List.mem_map.mpr ⟨s, ?_, hse⟩
    refine mem_sortDesc.mpr (List.mem_filter.mpr ⟨hst, ?_⟩)
    simp [h1, h2]

/-- C8: Cross-user isolation — a toggle for user `u` leaves every stored
session of a different user `v` unchanged, so `v`'s status and history
responses are identical before and after. -/
theorem claim_cross_user_isolation (store : List Session) (u v : String)
    (now : Nat) (huv : u ≠ v) :
    ((handleCheckinToggle store u now).2).filter (fun s => s.userId == v)
        = store.filter (fun s => s.userId == v)
    ∧ (handleCheckinStatus (handleCheckinToggle store u now).2 v).1
        = (handleCheckinStatus store v).1
    ∧ (handleCheckinHistory (handleCheckinToggle store u now).2 v).1
        = (handleCheckinHistory store v).1 := by
  have hf := @filter_toggle_ne store u v huv now
  have hgcs : getCurrentSession (handleCheckinToggle store u now).2 v
      = getCurrentSession store v := by
    unfold getCurrentSession queryDesc
    rw [hf]
  refine ⟨hf, ?_, ?_⟩
  · cases hgv : getCurrentSession store v with
    | some cur =>
      have hgt : getCurrentSession (handleCheckinToggle store u now).2 v
          = some cur := by rw [hgcs, hgv]
      rw [status_some hgt, status_some hgv]
    | none =>
      have hgt : getCurrentSession (handleCheckinToggle store u now).2 v
          = none := by rw [hgcs, hgv]
      rw [status_none hgt, status_none hgv]
  · unfold handleCheckinHistory queryDesc
    rw [hf]

/-- Witness for C8 at a concrete store, toggling a different user. -/
theorem claim_cross_user_isolation_case :
    ("x" : String) ≠ "y"
    ∧ ((handleCheckinToggle [({ userId := "y", checkInTime := 1 } : Session)]
          "x" 2).2).filter (fun s => s.userId == "y")
        = [({ userId := "y", checkInTime := 1 } : Session)].filter
            (fun s => s.userId == "y") :=
  ⟨by decide,
   (claim_cross_user_isolation [({ userId := "y", checkInTime := 1 } : Session)]
      "x" "y" 2 (by decide)).1⟩

/-- C9: Display attributes captured at open — the admin-plan toggle stores the
caller's resolved `userName`/`userEmail` on the created open session, and the
active-roster projection reports them. -/
theorem claim_display_attrs_roster (store : List Session) (d : Decoded)
    (now : Nat) (hg : getCurrentSession store d.sub = none) :
    ({ userId := d.sub, checkInTime := now,
       userName := some (resolveName d),
       userEmail := some (resolveEmail d) } : Session)
        ∈ (handleCheckinToggleWithAttrs store d now).2
    ∧ ({ userId := d.sub, userName := resolveName d,
         userEmail := resolveEmail d, checkInTime := now } : RosterEntry)
        ∈ (handleAdminActiveCheckins
            (handleCheckinToggleWithAttrs store d now).2).1 := by
  have h1 : handleCheckinToggleWithAttrs store d now
      = (.checkedInNow now,
         dynamoPut store
           { userId := d.sub, checkInTime := now,
             userName := some (resolveName d),
             userEmail := some (resolveEmail d) }) := by
    unfold handleCheckinToggleWithAttrs
    rw [hg]
  rw [h1]
  constructor
  · exact mem_dynamoPut.mpr (Or.inr rfl)
  · unfold handleAdminActiveCheckins
    refine List.mem_map.mpr
      ⟨{ userId := d.sub, checkInTime := now,
         userName := some (resolveName d),
         userEmail := some (resolveEmail d) }, ?_, rfl⟩
    refine mem_sortDesc.mpr (List.mem_filter.mpr
      ⟨mem_dynamoPut.mpr (Or.inr rfl), rfl⟩)

/-- Witness for C9 with a caller carrying namespaced name and plain email
claims, starting from the empty store. -/
theorem claim_display_attrs_roster_case :
    getCurrentSession []
        ({ sub := "s", nsName := some "N", email := some "E" } : Decoded).sub
      = none
    ∧ ({ userId := "s",
         userName := resolveName
           { sub := "s", nsName := some "N", email := some "E" },
         userEmail := resolveEmail
           { sub := "s", nsName := some "N", email := some "E" },
         checkInTime := 7 } : RosterEntry)
        ∈ (handleAdminActiveCheckins
            (handleCheckinToggleWithAttrs []
              { sub := "s", nsName := some "N", email := some "E" } 7).2).1 :=
  ⟨by decide,
   (claim_display_attrs_roster []
      { sub := "s", nsName := some "N", email := some "E" } 7 (by decide)).2⟩

/-- C10: Null-equals-absent — a stored `checkOutTime` equal to `null` is
treated exactly like an absent one: the resolver's truthiness test and the
close precondition agree on every session, openness depends only on whether
`checkOutTime` is a non-null timestamp, and a toggle closes a null-closed
(i.e. open) latest session just as it closes an attribute-absent one, while a
real timestamp makes the toggle open a new session instead. -/
theorem claim_null_absent_equivalence (s : Session) (u : String)
    (t e x : Nat) :
    jsFalsyCheckOut s = closeCondition s
    ∧ (jsFalsyCheckOut s = true ↔ ∀ y, s.checkOutTime ≠ some (some y))
    ∧ jsFalsyCheckOut { s with checkOutTime := some none }
        = jsFalsyCheckOut { s with checkOutTime := none }
    ∧ closeCondition { s with checkOutTime := some none }
        = closeCondition { s with checkOutTime := none }
    ∧ (handleCheckinToggle
        [{ userId := u, checkInTime := t, checkOutTime := some none }] u e).1
        = .checkedOutNow t e
    ∧ (handleCheckinToggle
        [({ userId := u, checkInTime := t } : Session)] u e).1
        = .checkedOutNow t e
    ∧ (handleCheckinToggle
        [{ userId := u, checkInTime := t,
           checkOutTime := some (some x) }] u e).1
        = .checkedInNow e := by
  refine ⟨jsFalsy_eq_closeCondition s, ?_, rfl, rfl, ?_, ?_, ?_⟩
  · cases hc : s.checkOutTime with
    | none => simp [jsFalsyCheckOut, hc]
    | some o =>
      cases o with
      | none => simp [jsFalsyCheckOut, hc]
      | some y => simp [jsFalsyCheckOut, hc]
  · have hwf : WF [{ userId := u, checkInTime := t, checkOutTime := some none }] :=
      List.pairwise_singleton _ _
    have hg : getCurrentSession
        [{ userId := u, checkInTime := t, checkOutTime := some none }] u
        = some { userId := u, checkInTime := t, checkOutTime := some none } := by
      refine gcs_intro hwf (List.mem_singleton.mpr rfl) rfl rfl ?_
      intro y hy hyu
      rw [List.mem_singleton.mp hy]
    rw [toggle_close_eq hwf hg e]
  · have hwf : WF [({ userId := u, checkInTime := t } : Session)] :=
      List.pairwise_singleton _ _
    have hg : getCurrentSession
        [({ userId := u, checkInTime := t } : Session)] u
        = some { userId := u, checkInTime := t } := by
      refine gcs_intro hwf (List.mem_singleton.mpr rfl) rfl rfl ?_
      intro y hy hyu
      rw [List.mem_singleton.mp hy]
    rw [toggle_close_eq hwf hg e]
  · have hwf :
        WF [{ userId := u, checkInTime := t, checkOutTime := some (some x) }] :=
      List.pairwise_singleton _ _
    have hg : getCurrentSession
        [{ userId := u, checkInTime := t, checkOutTime := some (some x) }] u
        = none := by
      refine gcs_closed_max hwf (List.mem_singleton.mpr rfl) rfl rfl ?_
      intro y hy hyu
      rw [List.mem_singleton.mp hy]
    rw [toggle_open_eq hg]

end ArcCheckIn
